import Mathlib

/-!
Shallow embedding of the pbc-kyc contract (src/src/lib.rs).

The contract keeps a store of KYC records inside a `SortedVecMap<u128, Kyc>`,
modelled here as a key-sorted association list `List (Nat × Kyc)`.  Rust
`assert!` aborts are modelled as `Except.error` with a typed error kind, so a
failing operation returns no new state (matching the chain's all-or-nothing
transaction semantics).  Outbound interactions and attached callbacks (the
`EventGroup` builder) are modelled as explicit data.
-/

namespace PbcKyc

/-- `AddressType` of pbc_contract_common (only `Account` is used by the code). -/
inductive AddressType where
  | account
  | publicContract
  deriving DecidableEq

/-- `Address` of pbc_contract_common: a type tag plus a 20-byte identifier. -/
structure Address where
  address_type : AddressType
  identifier : List Nat
  deriving DecidableEq

/-- The all-zero 20-byte identifier `[0x00; 20]` used as the null sentinel. -/
def blankIdentifier : List Nat := List.replicate 20 0

/-- The blank address constructed in `initialize`. -/
def blankAddress : Address :=
  { address_type := AddressType.account, identifier := blankIdentifier }

/-- One (property_name, property_value) pair of verified applicant data. -/
structure SubjectInfo where
  property_name : String
  property_value : String
  deriving DecidableEq

/-- A KYC record as stored by the contract. -/
structure Kyc where
  applicant_did : String
  applicant_info : List SubjectInfo
  approved : Bool
  pending : Bool
  deriving DecidableEq

/-- `SortedVecMap<u128, Kyc>` modelled as a key-sorted association list. -/
abbrev SVMap := List (Nat × Kyc)

/-- `SortedVecMap::insert`: replace the value at an existing key, otherwise
insert at the sorted position. -/
def svInsert (k : Nat) (v : Kyc) : SVMap → SVMap
  | [] => [(k, v)]
  | (k', v') :: rest =>
    if k < k' then (k, v) :: (k', v') :: rest
    else if k = k' then (k, v) :: rest
    else (k', v') :: svInsert k v rest

/-- `SortedVecMap::get` (also backs `get_mut` lookups). -/
def svGet (k : Nat) : SVMap → Option Kyc
  | [] => none
  | (k', v') :: rest => if k = k' then some v' else svGet k rest

/-- `SortedVecMap::contains_key`. -/
def svContains (k : Nat) (m : SVMap) : Bool :=
  m.any (fun p => p.1 == k)

/-- In-place mutation through `get_mut`: rewrite the value stored at `k`. -/
def svModify (k : Nat) (f : Kyc → Kyc) : SVMap → SVMap
  | [] => []
  | (k', v') :: rest =>
    if k = k' then (k', f v') :: rest else (k', v') :: svModify k f rest

/-- The keys of the map, in storage order. -/
def svKeys (m : SVMap) : List Nat := m.map (fun p => p.1)

/-- The `#[state]` struct `ContractState` (the field name `storage_adddress`
keeps the source's spelling). -/
structure ContractState where
  owner : Address
  registry_address : Address
  storage_adddress : Address
  kycs : SVMap
  deriving DecidableEq

/-- The part of `ContractContext` the code reads: the sender. -/
structure ContractContext where
  sender : Address
  deriving DecidableEq

/-- The part of `CallbackContext` the code reads: the success flag. -/
structure CallbackContext where
  success : Bool
  deriving DecidableEq

/-- Typed error kinds, one per `assert!` in the source. -/
inductive KycError where
  /-- "Not Authorized!" -/
  | Unauthorized
  /-- "Please configure a valid DID Registry Address!" / "... VC Storage Address!" -/
  | NotConfigured
  /-- "KYC Not Found!" -/
  | RecordNotFound
  /-- "KYC Not Approved!" -/
  | NotApproved
  /-- "DID Not Registered or Not Authorized!" -/
  | VerificationFailed
  /-- "VC Failed to Upload!" -/
  | IssuanceFailed
  deriving DecidableEq

/-- An RPC argument attached to an interaction or callback. -/
inductive RpcArg where
  | strArg (s : String)
  | addrArg (a : Address)
  | natArg (n : Nat)
  | boolArg (b : Bool)
  | infoArg (l : List SubjectInfo)
  | kycArg (k : Kyc)
  deriving DecidableEq

/-- One outbound call of an event group: target, shortname, arguments. -/
structure Interaction where
  target : Address
  shortname : Nat
  arguments : List RpcArg
  deriving DecidableEq

/-- An `EventGroup`: its interactions plus the registered callback (shortname
and callback arguments), when one is attached. -/
structure EventGroup where
  interactions : List Interaction
  callbackShortname : Option Nat
  callbackArguments : List RpcArg
  deriving DecidableEq

/-- `initialize` (`#[init]`): state owned by the sender, both collaborator
addresses at the blank sentinel, empty store. -/
def initContract (ctx : ContractContext) : ContractState :=
  { owner := ctx.sender
    registry_address := blankAddress
    storage_adddress := blankAddress
    kycs := [] }

/-- `configure_registry_address` (`#[action(shortname = 0x01)]`). -/
def configure_registry_address (context : ContractContext) (state : ContractState)
    (target_registry_address : Address) (target_storage_address : Address) :
    Except KycError ContractState :=
  if context.sender = state.owner then
    Except.ok { state with
      registry_address := target_registry_address
      storage_adddress := target_storage_address }
  else
    Except.error KycError.Unauthorized

/-- `upload_kyc` (`#[action(shortname = 0x02)]`): requires a configured
registry, stages the record with `approved = false, pending = true`, and
dispatches the registry check with the staged record as callback payload. -/
def upload_kyc (context : ContractContext) (state : ContractState)
    (applicant_did : String) (applicant_info : List SubjectInfo) :
    Except KycError (ContractState × List EventGroup) :=
  if state.registry_address.identifier ≠ blankIdentifier then
    let new_kyc : Kyc :=
      { applicant_did := applicant_did
        applicant_info := applicant_info
        approved := false
        pending := true }
    let eg : EventGroup :=
      { interactions :=
          [{ target := state.registry_address
             shortname := 0x05
             arguments := [RpcArg.strArg applicant_did, RpcArg.addrArg context.sender] }]
        callbackShortname := some 0x12
        callbackArguments := [RpcArg.kycArg new_kyc] }
    Except.ok (state, [eg])
  else
    Except.error KycError.NotConfigured

/-- `upload_kyc_callback` (`#[callback(shortname = 0x12)]`): asserts the
registry call succeeded, then inserts the payload under the current store
size. -/
def upload_kyc_callback (_context : ContractContext)
    (callback_context : CallbackContext) (state : ContractState) (new_kyc : Kyc) :
    Except KycError (ContractState × List EventGroup) :=
  if callback_context.success then
    let current_idx : Nat := state.kycs.length
    Except.ok ({ state with kycs := svInsert current_idx new_kyc state.kycs }, [])
  else
    Except.error KycError.VerificationFailed

/-- The record rewrite performed by `approve_kyc`: `pending = false`, then
`approved = true` or `approved = false` according to the decision. -/
def decideKyc (decision : Bool) (k : Kyc) : Kyc :=
  let k1 := { k with pending := false }
  if decision then { k1 with approved := true } else { k1 with approved := false }

/-- `approve_kyc` (`#[action(shortname = 0x03)]`): controller-only, record
must exist; sets its disposition via `decideKyc`. -/
def approve_kyc (context : ContractContext) (state : ContractState)
    (kyc_idx : Nat) (decision : Bool) : Except KycError ContractState :=
  if context.sender = state.owner then
    if svContains kyc_idx state.kycs then
      Except.ok { state with kycs := svModify kyc_idx (decideKyc decision) state.kycs }
    else
      Except.error KycError.RecordNotFound
  else
    Except.error KycError.Unauthorized

/-- `create_vc` (`#[action(shortname = 0x04)]`): controller-only, storage
address configured, record exists and is approved; dispatches the VC upload
with a payload-free callback, leaving the state untouched. -/
def create_vc (context : ContractContext) (state : ContractState)
    (kyc_idx : Nat) (issuer_did : String) (valid_since : String)
    (valid_until : String) (description : String) :
    Except KycError (ContractState × List EventGroup) :=
  if context.sender = state.owner then
    if state.storage_adddress.identifier ≠ blankIdentifier then
      match svGet kyc_idx state.kycs with
      | none => Except.error KycError.RecordNotFound
      | some kyc =>
        if kyc.approved then
          let eg : EventGroup :=
            { interactions :=
                [{ target := state.storage_adddress
                   shortname := 0x02
                   arguments :=
                     [RpcArg.strArg issuer_did, RpcArg.natArg kyc_idx,
                      RpcArg.strArg kyc.applicant_did, RpcArg.infoArg kyc.applicant_info,
                      RpcArg.strArg valid_since, RpcArg.strArg valid_until,
                      RpcArg.strArg description, RpcArg.boolArg false] }]
              callbackShortname := some 0x14
              callbackArguments := [] }
          Except.ok (state, [eg])
        else
          Except.error KycError.NotApproved
    else
      Except.error KycError.NotConfigured
  else
    Except.error KycError.Unauthorized

/-- `create_vc_callback` (`#[callback(shortname = 0x14)]`): asserts the
storage call succeeded; no state change either way. -/
def create_vc_callback (_context : ContractContext)
    (callback_context : CallbackContext) (state : ContractState) :
    Except KycError (ContractState × List EventGroup) :=
  if callback_context.success then
    Except.ok (state, [])
  else
    Except.error KycError.IssuanceFailed

/-- The record a staging operation attached as callback payload, read back
out of the produced event groups. -/
def stagedPayload (events : List EventGroup) : Option Kyc :=
  match events with
  | [eg] =>
    match eg.callbackArguments with
    | [RpcArg.kycArg k] => some k
    | _ => none
  | _ => none

/-- One transition of the contract: any entry point that completes
successfully, from any context. -/
inductive Step : ContractState → ContractState → Prop where
  | configure : ∀ ctx s ra sa s',
      configure_registry_address ctx s ra sa = Except.ok s' → Step s s'
  | stage : ∀ ctx s did info s' evs,
      upload_kyc ctx s did info = Except.ok (s', evs) → Step s s'
  | commit : ∀ ctx cb s k s' evs,
      upload_kyc_callback ctx cb s k = Except.ok (s', evs) → Step s s'
  | decide : ∀ ctx s idx d s',
      approve_kyc ctx s idx d = Except.ok s' → Step s s'
  | issue : ∀ ctx s idx a b c d s' evs,
      create_vc ctx s idx a b c d = Except.ok (s', evs) → Step s s'
  | confirm : ∀ ctx cb s s' evs,
      create_vc_callback ctx cb s = Except.ok (s', evs) → Step s s'

/-- States reachable from contract initialization by successful entry points. -/
inductive Reachable : ContractState → Prop where
  | init : ∀ ctx, Reachable (initContract ctx)
  | step : ∀ s s', Reachable s → Step s s' → Reachable s'

/-- The store's key set is exactly the contiguous range 0..size-1. -/
def keysContiguous (s : ContractState) : Prop :=
  svKeys s.kycs = List.range s.kycs.length

/-! ### Lemmas about the association-list map -/

theorem svKeys_length (m : SVMap) : (svKeys m).length = m.length := by
  simp [svKeys]

theorem svKeys_append (m n : SVMap) : svKeys (m ++ n) = svKeys m ++ svKeys n := by
  simp [svKeys]

theorem svInsert_of_forall_lt (k : Nat) (v : Kyc) :
    ∀ m : SVMap, (∀ p ∈ m, p.1 < k) → svInsert k v m = m ++ [(k, v)] := by
  intro m
  induction m with
  | nil => intro _; rfl
  | cons hd tl ih =>
    intro hlt
    have hhd : hd.1 < k := hlt hd (List.mem_cons_self hd tl)
    have h1 : ¬ k < hd.1 := by omega
    have h2 : ¬ k = hd.1 := by omega
    simp only [svInsert, h1, h2, if_false]
    rw [ih (fun p hp => hlt p (List.mem_cons_of_mem hd hp))]
    rfl

theorem keys_lt_of_contiguous (m : SVMap) (h : svKeys m = List.range m.length) :
    ∀ p ∈ m, p.1 < m.length := by
  intro p hp
  have hmem : p.1 ∈ svKeys m := List.mem_map_of_mem (fun q => q.1) hp
  rw [h] at hmem
  exact List.mem_range.mp hmem

theorem svGet_append_left (j : Nat) (r : Kyc) :
    ∀ (m l : SVMap), svGet j m = some r → svGet j (m ++ l) = some r := by
  intro m l
  induction m with
  | nil => intro h; exact absurd h (by simp [svGet])
  | cons hd tl ih =>
    intro h
    simp only [svGet] at h ⊢
    by_cases hj : j = hd.1
    · simpa [hj] using h
    · simp only [hj, if_false] at h ⊢
      exact ih h

theorem svGet_append_self (k : Nat) (v : Kyc) :
    ∀ m : SVMap, (∀ p ∈ m, p.1 ≠ k) → svGet k (m ++ [(k, v)]) = some v := by
  intro m
  induction m with
  | nil => intro _; simp [svGet]
  | cons hd tl ih =>
    intro hne
    have hhd : hd.1 ≠ k := hne hd (List.mem_cons_self hd tl)
    simp only [List.cons_append, svGet]
    rw [if_neg (fun hk => hhd hk.symm)]
    exact ih (fun p hp => hne p (List.mem_cons_of_mem hd hp))

theorem svModify_keys (k : Nat) (f : Kyc → Kyc) :
    ∀ m : SVMap, svKeys (svModify k f m) = svKeys m := by
  intro m
  induction m with
  | nil => rfl
  | cons hd tl ih =>
    by_cases hk : k = hd.1
    · simp [svModify, hk, svKeys]
    · simp only [svModify, hk, if_false]
      simp only [svKeys, List.map_cons] at ih ⊢
      rw [ih]

theorem svModify_length (k : Nat) (f : Kyc → Kyc) (m : SVMap) :
    (svModify k f m).length = m.length := by
  have h := congrArg List.length (svModify_keys k f m)
  simpa [svKeys_length] using h

theorem svGet_svModify_self (k : Nat) (f : Kyc → Kyc) (r : Kyc) :
    ∀ m : SVMap, svGet k m = some r → svGet k (svModify k f m) = some (f r) := by
  intro m
  induction m with
  | nil => intro h; exact absurd h (by simp [svGet])
  | cons hd tl ih =>
    intro h
    simp only [svGet] at h
    by_cases hk : k = hd.1
    · simp only [hk, if_true] at h
      cases h
      simp [svModify, hk, svGet]
    · simp only [hk, if_false] at h
      simp only [svModify, hk, if_false, svGet]
      exact ih h

theorem svGet_svModify_ne (j k : Nat) (f : Kyc → Kyc) (hjk : j ≠ k) :
    ∀ m : SVMap, svGet j (svModify k f m) = svGet j m := by
  intro m
  induction m with
  | nil => rfl
  | cons hd tl ih =>
    by_cases hk : k = hd.1
    · subst hk
      simp [svModify, svGet, hjk, ih]
    · simp only [svModify, hk, if_false, svGet]
      by_cases hj : j = hd.1
      · simp [hj]
      · simp only [hj, if_false]
        exact ih

theorem svContains_svModify (j k : Nat) (f : Kyc → Kyc) (m : SVMap) :
    svContains j (svModify k f m) = svContains j m := by
  induction m with
  | nil => rfl
  | cons hd tl ih =>
    by_cases hk : k = hd.1
    · simp [svModify, hk, svContains]
    · simp only [svModify, hk, if_false, svContains, List.any_cons]
      simp only [svContains] at ih
      rw [ih]

theorem svModify_svModify (k : Nat) (f g : Kyc → Kyc) :
    ∀ m : SVMap, svModify k f (svModify k g m) = svModify k (fun r => f (g r)) m := by
  intro m
  induction m with
  | nil => rfl
  | cons hd tl ih =>
    by_cases hk : k = hd.1
    · simp [svModify, hk]
    · simp [svModify, hk, ih]

theorem svModify_congr (k : Nat) (f g : Kyc → Kyc) (hfg : ∀ r, f r = g r) :
    ∀ m : SVMap, svModify k f m = svModify k g m := by
  intro m
  induction m with
  | nil => rfl
  | cons hd tl ih =>
    by_cases hk : k = hd.1
    · simp [svModify, hk, hfg]
    · simp [svModify, hk, ih]

theorem svContains_exists_svGet (k : Nat) :
    ∀ m : SVMap, svContains k m = true → ∃ r, svGet k m = some r := by
  intro m
  induction m with
  | nil => intro h; exact absurd h (by simp [svContains])
  | cons hd tl ih =>
    intro h
    by_cases hk : k = hd.1
    · exact ⟨hd.2, by simp [svGet, hk]⟩
    · simp only [svContains, List.any_cons, Bool.or_eq_true, beq_iff_eq] at h
      rcases h with h | h
      · exact absurd h.symm hk
      · rcases ih h with ⟨r, hr⟩
        exact ⟨r, by simp [svGet, hk, hr]⟩

theorem decideKyc_decideKyc (a b : Bool) (r : Kyc) :
    decideKyc b (decideKyc a r) = decideKyc b r := by
  cases a <;> cases b <;> rfl

theorem decideKyc_pending (d : Bool) (r : Kyc) : (decideKyc d r).pending = false := by
  cases d <;> rfl

theorem decideKyc_approved (d : Bool) (r : Kyc) : (decideKyc d r).approved = d := by
  cases d <;> rfl

/-! ### Inversion lemmas for the entry points -/

theorem configure_ok {ctx : ContractContext} {s : ContractState} {ra sa : Address}
    {s' : ContractState}
    (h : configure_registry_address ctx s ra sa = Except.ok s') :
    ctx.sender = s.owner ∧
      s' = { s with registry_address := ra, storage_adddress := sa } := by
  unfold configure_registry_address at h
  split at h
  · exact ⟨by assumption, by injection h with h'; exact h'.symm⟩
  · exact absurd h (by simp)

theorem upload_ok {ctx : ContractContext} {s : ContractState} {did : String}
    {info : List SubjectInfo} {s' : ContractState} {evs : List EventGroup}
    (h : upload_kyc ctx s did info = Except.ok (s', evs)) :
    s.registry_address.identifier ≠ blankIdentifier ∧ s' = s ∧
      stagedPayload evs = some
        { applicant_did := did, applicant_info := info
          approved := false, pending := true } := by
  unfold upload_kyc at h
  split at h
  · injection h with h'
    injection h' with h1 h2
    refine ⟨by assumption, h1.symm, ?_⟩
    rw [← h2]
    rfl
  · exact absurd h (by simp)

theorem upload_fail {ctx : ContractContext} {s : ContractState} {did : String}
    {info : List SubjectInfo}
    (h : s.registry_address.identifier = blankIdentifier) :
    upload_kyc ctx s did info = Except.error KycError.NotConfigured := by
  unfold upload_kyc
  rw [if_neg]
  simp [h]

theorem callback_ok {ctx : ContractContext} {cb : CallbackContext}
    {s : ContractState} {k : Kyc} {s' : ContractState} {evs : List EventGroup}
    (h : upload_kyc_callback ctx cb s k = Except.ok (s', evs)) :
    cb.success = true ∧
      s' = { s with kycs := svInsert s.kycs.length k s.kycs } ∧ evs = [] := by
  unfold upload_kyc_callback at h
  split at h
  · injection h with h'
    injection h' with h1 h2
    exact ⟨by assumption, h1.symm, h2.symm⟩
  · exact absurd h (by simp)

theorem callback_fail {ctx : ContractContext} {cb : CallbackContext}
    {s : ContractState} {k : Kyc} (h : cb.success = false) :
    upload_kyc_callback ctx cb s k = Except.error KycError.VerificationFailed := by
  unfold upload_kyc_callback
  rw [if_neg]
  simp [h]

theorem approve_ok {ctx : ContractContext} {s : ContractState} {i : Nat}
    {d : Bool} {s' : ContractState}
    (h : approve_kyc ctx s i d = Except.ok s') :
    ctx.sender = s.owner ∧ svContains i s.kycs = true ∧
      s' = { s with kycs := svModify i (decideKyc d) s.kycs } := by
  unfold approve_kyc at h
  split at h
  · split at h
    · exact ⟨by assumption, by assumption, by injection h with h'; exact h'.symm⟩
    · exact absurd h (by simp)
  · exact absurd h (by simp)

theorem create_vc_ok {ctx : ContractContext} {s : ContractState} {i : Nat}
    {a b c d : String} {s' : ContractState} {evs : List EventGroup}
    (h : create_vc ctx s i a b c d = Except.ok (s', evs)) : s' = s := by
  unfold create_vc at h
  split at h
  · split at h
    · split at h
      · exact absurd h (by simp)
      · split at h
        · injection h with h'
          injection h' with h1 _
          exact h1.symm
        · exact absurd h (by simp)
    · exact absurd h (by simp)
  · exact absurd h (by simp)

theorem cvc_callback_ok {ctx : ContractContext} {cb : CallbackContext}
    {s : ContractState} {s' : ContractState} {evs : List EventGroup}
    (h : create_vc_callback ctx cb s = Except.ok (s', evs)) :
    s' = s ∧ evs = [] := by
  unfold create_vc_callback at h
  split at h
  · injection h with h'
    injection h' with h1 h2
    exact ⟨h1.symm, h2.symm⟩
  · exact absurd h (by simp)

theorem cvc_callback_fail {ctx : ContractContext} {cb : CallbackContext}
    {s : ContractState} (h : cb.success = false) :
    create_vc_callback ctx cb s = Except.error KycError.IssuanceFailed := by
  unfold create_vc_callback
  rw [if_neg]
  simp [h]

/-! ### The contiguous-keys invariant -/

theorem contiguous_insert {s : ContractState} (h : keysContiguous s) (k : Kyc) :
    svInsert s.kycs.length k s.kycs = s.kycs ++ [(s.kycs.length, k)] :=
  svInsert_of_forall_lt _ k s.kycs (keys_lt_of_contiguous s.kycs h)

theorem contiguous_after_insert {s : ContractState} (h : keysContiguous s) (k : Kyc) :
    keysContiguous { s with kycs := svInsert s.kycs.length k s.kycs } := by
  unfold keysContiguous at h ⊢
  rw [contiguous_insert h k]
  simp only [svKeys_append, List.length_append, List.length_singleton]
  rw [h]
  rw [List.range_succ]
  rfl

theorem step_preserves_contiguous {s s' : ContractState}
    (hstep : Step s s') (h : keysContiguous s) : keysContiguous s' := by
  cases hstep with
  | configure ctx s ra sa s' heq =>
    rcases configure_ok heq with ⟨_, rfl⟩
    exact h
  | stage ctx s did info s' evs heq =>
    rcases upload_ok heq with ⟨_, rfl, _⟩
    exact h
  | commit ctx cb s k s' evs heq =>
    rcases callback_ok heq with ⟨_, rfl, _⟩
    exact contiguous_after_insert h k
  | decide ctx s idx d s' heq =>
    rcases approve_ok heq with ⟨_, _, rfl⟩
    unfold keysContiguous at h ⊢
    simp only [svModify_keys, svModify_length]
    exact h
  | issue ctx s idx a b c d s' evs heq =>
    rw [create_vc_ok heq]
    exact h
  | confirm ctx cb s s' evs heq =>
    rcases cvc_callback_ok heq with ⟨rfl, _⟩
    exact h

theorem reachable_contiguous {s : ContractState} (h : Reachable s) :
    keysContiguous s := by
  induction h with
  | init ctx => rfl
  | step s s' _ hstep ih => exact step_preserves_contiguous hstep ih

theorem approve_eq_ok {ctx : ContractContext} {s : ContractState} {i : Nat}
    (d : Bool) (hown : ctx.sender = s.owner) (hmem : svContains i s.kycs = true) :
    approve_kyc ctx s i d =
      Except.ok { s with kycs := svModify i (decideKyc d) s.kycs } := by
  unfold approve_kyc
  rw [if_pos hown, if_pos hmem]

/-! ### Concrete fixtures used by the witness theorems -/

/-- A concrete controller address. -/
def addrA : Address :=
  { address_type := AddressType.account, identifier := 1 :: List.replicate 19 0 }

/-- A concrete non-controller address. -/
def addrB : Address :=
  { address_type := AddressType.account, identifier := 2 :: List.replicate 19 0 }

/-- A concrete registry address. -/
def addrR : Address :=
  { address_type := AddressType.publicContract, identifier := 3 :: List.replicate 19 0 }

/-- A concrete storage address. -/
def addrS : Address :=
  { address_type := AddressType.publicContract, identifier := 4 :: List.replicate 19 0 }

/-- The controller's call context. -/
def ctxA : ContractContext := { sender := addrA }

/-- A stranger's call context. -/
def ctxB : ContractContext := { sender := addrB }

/-- Sample applicant attributes. -/
def sampleInfo : List SubjectInfo :=
  [{ property_name := "name", property_value := "Alice" }]

/-- The record staged for the sample applicant. -/
def sampleKyc : Kyc :=
  { applicant_did := "did:example:1", applicant_info := sampleInfo
    approved := false, pending := true }

/-- A configured state owned by `addrA` with an empty store. -/
def stateCfg : ContractState :=
  { owner := addrA, registry_address := addrR, storage_adddress := addrS, kycs := [] }

/-- `stateCfg` after committing `sampleKyc` under identifier 0. -/
def stateOne : ContractState := { stateCfg with kycs := [(0, sampleKyc)] }

/-- The sample record once approved. -/
def approvedKyc : Kyc := { sampleKyc with pending := false, approved := true }

/-- `stateOne` after the controller approved record 0. -/
def stateApproved : ContractState := { stateCfg with kycs := [(0, approvedKyc)] }

/-- The event group `upload_kyc` emits for the sample applicant from `stateCfg`. -/
def egStage : EventGroup :=
  { interactions :=
      [{ target := addrR, shortname := 0x05
         arguments := [RpcArg.strArg "did:example:1", RpcArg.addrArg addrA] }]
    callbackShortname := some 0x12
    callbackArguments := [RpcArg.kycArg sampleKyc] }

/-! ### Claim theorems -/

/-- C1: from any state whose store keys are the contiguous range 0..size-1
(every reachable state is such, by `reachable_contiguous`), a successful
`upload_kyc` followed by its verification callback with a success outcome
commits exactly one new entry: the staged record, with `pending = true` and
`approved = false`, under identifier = the store size before the commit; the
new store is the old store with that single entry appended, so all previously
committed records are unchanged. -/
theorem claim1_stage_then_success_commits_one
    (ctx ctx2 : ContractContext) (cb : CallbackContext) (s : ContractState)
    (did : String) (info : List SubjectInfo) (s1 : ContractState)
    (evs : List EventGroup) (k : Kyc) (s2 : ContractState) (evs2 : List EventGroup)
    (hcont : keysContiguous s)
    (hstage : upload_kyc ctx s did info = Except.ok (s1, evs))
    (hpayload : stagedPayload evs = some k)
    (hcb : upload_kyc_callback ctx2 cb s1 k = Except.ok (s2, evs2)) :
    cb.success = true ∧
    k = { applicant_did := did, applicant_info := info
          approved := false, pending := true } ∧
    s2.kycs = s.kycs ++ [(s.kycs.length, k)] ∧
    s2.owner = s.owner ∧ s2.registry_address = s.registry_address ∧
    s2.storage_adddress = s.storage_adddress := by
  rcases upload_ok hstage with ⟨_, rfl, hpay⟩
  rw [hpayload] at hpay
  injection hpay with hk
  rcases callback_ok hcb with ⟨hsucc, rfl, _⟩
  refine ⟨hsucc, hk, ?_, rfl, rfl, rfl⟩
  exact contiguous_insert hcont k

/-- C1 witness: the sample applicant staged from the configured empty state
and committed by a successful callback lands as the single record 0. -/
theorem claim1_witness :
    (CallbackContext.mk true).success = true ∧
    sampleKyc = { applicant_did := "did:example:1", applicant_info := sampleInfo
                  approved := false, pending := true } ∧
    stateOne.kycs = stateCfg.kycs ++ [(stateCfg.kycs.length, sampleKyc)] ∧
    stateOne.owner = stateCfg.owner ∧
    stateOne.registry_address = stateCfg.registry_address ∧
    stateOne.storage_adddress = stateCfg.storage_adddress :=
  claim1_stage_then_success_commits_one ctxA ctxA (CallbackContext.mk true)
    stateCfg "did:example:1" sampleInfo stateCfg [egStage] sampleKyc stateOne []
    rfl rfl rfl rfl

/-- C2: records are inserted only by the verification callback and only under
a success outcome, and no entry point deletes records: the store starts
empty; `configure_registry_address`, `upload_kyc`, `create_vc` and
`create_vc_callback` leave the store untouched; the verification callback
errors with `VerificationFailed` on a failure outcome, and on success its
whole effect on the store is one insert; `approve_kyc` preserves the key
list exactly. -/
theorem claim2_insert_only_by_verified_callback :
    (∀ ctx, (initContract ctx).kycs = []) ∧
    (∀ ctx s ra sa s', configure_registry_address ctx s ra sa = Except.ok s' →
      s'.kycs = s.kycs) ∧
    (∀ ctx s did info s1 evs, upload_kyc ctx s did info = Except.ok (s1, evs) →
      s1.kycs = s.kycs) ∧
    (∀ ctx cb s k, cb.success = false →
      upload_kyc_callback ctx cb s k = Except.error KycError.VerificationFailed) ∧
    (∀ ctx cb s k s' evs, upload_kyc_callback ctx cb s k = Except.ok (s', evs) →
      cb.success = true ∧ s'.kycs = svInsert s.kycs.length k s.kycs) ∧
    (∀ ctx s i d s', approve_kyc ctx s i d = Except.ok s' →
      svKeys s'.kycs = svKeys s.kycs) ∧
    (∀ ctx s i a b c dsc s' evs, create_vc ctx s i a b c dsc = Except.ok (s', evs) →
      s'.kycs = s.kycs) ∧
    (∀ ctx cb s s' evs, create_vc_callback ctx cb s = Except.ok (s', evs) →
      s'.kycs = s.kycs) := by
  refine ⟨fun _ => rfl, ?_, ?_, ?_, ?_, ?_, ?_, ?_⟩
  · intro ctx s ra sa s' h
    rcases configure_ok h with ⟨_, rfl⟩
    rfl
  · intro ctx s did info s1 evs h
    rcases upload_ok h with ⟨_, rfl, _⟩
    rfl
  · intro ctx cb s k h
    exact callback_fail h
  · intro ctx cb s k s' evs h
    rcases callback_ok h with ⟨hsucc, rfl, _⟩
    exact ⟨hsucc, rfl⟩
  · intro ctx s i d s' h
    rcases approve_ok h with ⟨_, _, rfl⟩
    exact svModify_keys i (decideKyc d) s.kycs
  · intro ctx s i a b c dsc s' evs h
    rw [create_vc_ok h]
  · intro ctx cb s s' evs h
    rcases cvc_callback_ok h with ⟨rfl, _⟩
    rfl

/-- C2 witness: the initial store is empty, and a failure-outcome callback on
a concrete state errors with `VerificationFailed`. -/
theorem claim2_witness :
    (initContract ctxA).kycs = [] ∧
    upload_kyc_callback ctxA (CallbackContext.mk false) stateCfg sampleKyc =
      Except.error KycError.VerificationFailed :=
  ⟨claim2_insert_only_by_verified_callback.1 ctxA,
   claim2_insert_only_by_verified_callback.2.2.2.1 ctxA (CallbackContext.mk false)
     stateCfg sampleKyc rfl⟩

/-- C3: a verification callback carrying a failure outcome fails with
`VerificationFailed` and mutates nothing: the staging step had already left
the state exactly as before `upload_kyc`, and the callback produces no new
state, so store size and contents equal those before `upload_kyc` ran. -/
theorem claim3_failed_verification_discards
    (ctx ctx2 : ContractContext) (cb : CallbackContext) (s : ContractState)
    (did : String) (info : List SubjectInfo) (s1 : ContractState)
    (evs : List EventGroup) (k : Kyc)
    (hstage : upload_kyc ctx s did info = Except.ok (s1, evs))
    (hfail : cb.success = false) :
    s1 = s ∧
    upload_kyc_callback ctx2 cb s1 k = Except.error KycError.VerificationFailed := by
  rcases upload_ok hstage with ⟨_, rfl, _⟩
  exact ⟨rfl, callback_fail hfail⟩

/-- C3 witness: staging the sample applicant and then failing the callback
leaves the configured empty state untouched. -/
theorem claim3_witness :
    stateCfg = stateCfg ∧
    upload_kyc_callback ctxA (CallbackContext.mk false) stateCfg sampleKyc =
      Except.error KycError.VerificationFailed :=
  claim3_failed_verification_discards ctxA ctxA (CallbackContext.mk false)
    stateCfg "did:example:1" sampleInfo stateCfg [egStage] sampleKyc rfl rfl

/-- C4: every caller other than the owner is rejected with `Unauthorized` by
`approve_kyc`, `create_vc` and `configure_registry_address`; each returns an
error and no successor state, so store and configuration are unchanged. -/
theorem claim4_non_controller_unauthorized
    (ctx : ContractContext) (s : ContractState) (ra sa : Address) (i : Nat)
    (d : Bool) (a b c dsc : String)
    (hne : ctx.sender ≠ s.owner) :
    configure_registry_address ctx s ra sa = Except.error KycError.Unauthorized ∧
    approve_kyc ctx s i d = Except.error KycError.Unauthorized ∧
    create_vc ctx s i a b c dsc = Except.error KycError.Unauthorized := by
  refine ⟨?_, ?_, ?_⟩
  · unfold configure_registry_address
    rw [if_neg hne]
  · unfold approve_kyc
    rw [if_neg hne]
  · unfold create_vc
    rw [if_neg hne]

/-- C4 witness: the stranger `addrB` is rejected by all three controller-only
entry points on a concrete configured state. -/
theorem claim4_witness :
    configure_registry_address ctxB stateOne addrR addrS =
      Except.error KycError.Unauthorized ∧
    approve_kyc ctxB stateOne 0 true = Except.error KycError.Unauthorized ∧
    create_vc ctxB stateOne 0 "did:issuer:1" "2024-01-01" "2030-01-01" "KYC verified" =
      Except.error KycError.Unauthorized :=
  claim4_non_controller_unauthorized ctxB stateOne addrR addrS 0 true
    "did:issuer:1" "2024-01-01" "2030-01-01" "KYC verified" (by decide)

/-- C5: for a committed record id and any decisions `a`, `b` by the
controller, `approve_kyc` with `a` followed by `approve_kyc` with `b` equals
`approve_kyc` with `b` alone (last decision wins, idempotent under
repetition), and the resulting record has `pending = false` and
`approved = b`. -/
theorem claim5_last_decision_wins
    (ctx : ContractContext) (s : ContractState) (i : Nat) (a b : Bool)
    (hown : ctx.sender = s.owner) (hmem : svContains i s.kycs = true) :
    (Except.bind (approve_kyc ctx s i a) (fun s1 => approve_kyc ctx s1 i b) =
      approve_kyc ctx s i b) ∧
    ∃ s2 r, approve_kyc ctx s i b = Except.ok s2 ∧
      svGet i s2.kycs = some r ∧ r.pending = false ∧ r.approved = b := by
  obtain ⟨own, ra, sa, m⟩ := s
  have h1 := @approve_eq_ok ctx (ContractState.mk own ra sa m) i a hown hmem
  have hmem1 : svContains i (svModify i (decideKyc a) m) = true := by
    rw [svContains_svModify]
    exact hmem
  have h2 := @approve_eq_ok ctx
    (ContractState.mk own ra sa (svModify i (decideKyc a) m)) i b hown hmem1
  have hb := @approve_eq_ok ctx (ContractState.mk own ra sa m) i b hown hmem
  have hcomp : svModify i (decideKyc b) (svModify i (decideKyc a) m) =
      svModify i (decideKyc b) m := by
    rw [svModify_svModify]
    exact svModify_congr i _ _ (decideKyc_decideKyc a b) m
  refine ⟨?_, ?_⟩
  · rw [h1]
    simp only [Except.bind]
    rw [h2, hb]
    dsimp only
    rw [hcomp]
  · rcases svContains_exists_svGet i m hmem with ⟨r0, hr0⟩
    refine ⟨ContractState.mk own ra sa (svModify i (decideKyc b) m),
      decideKyc b r0, hb, ?_, decideKyc_pending b r0, decideKyc_approved b r0⟩
    exact svGet_svModify_self i (decideKyc b) r0 m hr0

/-- C5 witness: approving then denying record 0 of a concrete one-record
state equals denying it directly, and leaves it denied and not pending. -/
theorem claim5_witness :
    (Except.bind (approve_kyc ctxA stateOne 0 true)
      (fun s1 => approve_kyc ctxA s1 0 false) =
      approve_kyc ctxA stateOne 0 false) ∧
    ∃ s2 r, approve_kyc ctxA stateOne 0 false = Except.ok s2 ∧
      svGet 0 s2.kycs = some r ∧ r.pending = false ∧ r.approved = false :=
  claim5_last_decision_wins ctxA stateOne 0 true false rfl rfl

/-- C6: `create_vc` invoked by the controller with the storage address
configured, on a record that exists but has `approved = false`, fails with
`NotApproved`; the error return carries no event groups, so no outbound call
is dispatched. -/
theorem claim6_not_approved_rejected
    (ctx : ContractContext) (s : ContractState) (i : Nat)
    (a b c dsc : String) (r : Kyc)
    (hown : ctx.sender = s.owner)
    (hcfg : s.storage_adddress.identifier ≠ blankIdentifier)
    (hget : svGet i s.kycs = some r)
    (hnap : r.approved = false) :
    create_vc ctx s i a b c dsc = Except.error KycError.NotApproved := by
  unfold create_vc
  rw [if_pos hown, if_pos hcfg, hget]
  simp [hnap]

/-- C6 witness: requesting issuance for the still-pending record 0 of
`stateOne` is rejected with `NotApproved`. -/
theorem claim6_witness :
    create_vc ctxA stateOne 0 "did:issuer:1" "2024-01-01" "2030-01-01"
      "KYC verified" = Except.error KycError.NotApproved :=
  claim6_not_approved_rejected ctxA stateOne 0 "did:issuer:1" "2024-01-01"
    "2030-01-01" "KYC verified" sampleKyc rfl (by decide) rfl rfl

/-- C7: neither `create_vc` nor `create_vc_callback` mutates the state: a
successful `create_vc` returns the state it received; the callback errors
with `IssuanceFailed` on a failure outcome and returns the received state
unchanged (with no events) on success. -/
theorem claim7_issuance_never_mutates :
    (∀ ctx s i a b c dsc s' evs,
      create_vc ctx s i a b c dsc = Except.ok (s', evs) → s' = s) ∧
    (∀ ctx cb s, cb.success = false →
      create_vc_callback ctx cb s = Except.error KycError.IssuanceFailed) ∧
    (∀ ctx cb s, cb.success = true →
      create_vc_callback ctx cb s = Except.ok (s, [])) := by
  refine ⟨?_, ?_, ?_⟩
  · intro ctx s i a b c dsc s' evs h
    exact create_vc_ok h
  · intro ctx cb s h
    exact cvc_callback_fail h
  · intro ctx cb s h
    unfold create_vc_callback
    rw [if_pos h]

/-- The event group `create_vc` emits for record 0 from `stateApproved`. -/
def egIssue : EventGroup :=
  { interactions :=
      [{ target := addrS, shortname := 0x02
         arguments :=
           [RpcArg.strArg "did:issuer:1", RpcArg.natArg 0,
            RpcArg.strArg "did:example:1", RpcArg.infoArg sampleInfo,
            RpcArg.strArg "2024-01-01", RpcArg.strArg "2030-01-01",
            RpcArg.strArg "KYC verified", RpcArg.boolArg false] }]
    callbackShortname := some 0x14
    callbackArguments := [] }

/-- C7 witness: a concrete successful issuance from `stateApproved` returns
the same state, and both callback outcomes leave it untouched. -/
theorem claim7_witness :
    stateApproved = stateApproved ∧
    create_vc_callback ctxA (CallbackContext.mk false) stateApproved =
      Except.error KycError.IssuanceFailed ∧
    create_vc_callback ctxA (CallbackContext.mk true) stateApproved =
      Except.ok (stateApproved, []) :=
  ⟨claim7_issuance_never_mutates.1 ctxA stateApproved 0 "did:issuer:1"
      "2024-01-01" "2030-01-01" "KYC verified" stateApproved [egIssue] rfl,
   claim7_issuance_never_mutates.2.1 ctxA (CallbackContext.mk false)
      stateApproved rfl,
   claim7_issuance_never_mutates.2.2 ctxA (CallbackContext.mk true)
      stateApproved rfl⟩

/-- C8: while the registry address is still the all-zero sentinel,
`upload_kyc` fails with `NotConfigured` for every caller and every input;
the error return carries no new state and no event groups, so the store is
unchanged and nothing is dispatched. -/
theorem claim8_unconfigured_registry_rejects_upload
    (ctx : ContractContext) (s : ContractState) (did : String)
    (info : List SubjectInfo)
    (h : s.registry_address.identifier = blankIdentifier) :
    upload_kyc ctx s did info = Except.error KycError.NotConfigured :=
  upload_fail h

/-- C8 witness: on the freshly initialized state any upload is rejected with
`NotConfigured`. -/
theorem claim8_witness :
    upload_kyc ctxB (initContract ctxA) "did:example:1" sampleInfo =
      Except.error KycError.NotConfigured :=
  claim8_unconfigured_registry_rejects_upload ctxB (initContract ctxA)
    "did:example:1" sampleInfo rfl

/-- C9: every record enters the store with `pending = true` (the payload
staged by `upload_kyc` has `pending = true, approved = false`, and a
successful callback stores exactly that payload at the fresh identifier
while leaving all previously present records unchanged); the pending flag is
changed only by `approve_kyc`, which rewrites the decided record to
`pending = false` and leaves every other record untouched; no other entry
point touches any stored record. -/
theorem claim9_pending_set_false_exactly_once :
    (∀ ctx s did info s1 evs, upload_kyc ctx s did info = Except.ok (s1, evs) →
      ∃ k, stagedPayload evs = some k ∧ k.pending = true ∧ k.approved = false) ∧
    (∀ ctx cb s k s' evs,
      upload_kyc_callback ctx cb s k = Except.ok (s', evs) → keysContiguous s →
      svGet s.kycs.length s'.kycs = some k ∧
      ∀ j r, svGet j s.kycs = some r → svGet j s'.kycs = some r) ∧
    (∀ ctx s i d s', approve_kyc ctx s i d = Except.ok s' →
      (∃ r0, svGet i s.kycs = some r0 ∧
        svGet i s'.kycs = some (decideKyc d r0) ∧
        (decideKyc d r0).pending = false) ∧
      ∀ j, j ≠ i → svGet j s'.kycs = svGet j s.kycs) ∧
    (∀ ctx s ra sa s', configure_registry_address ctx s ra sa = Except.ok s' →
      s'.kycs = s.kycs) ∧
    (∀ ctx s i a b c dsc s' evs,
      create_vc ctx s i a b c dsc = Except.ok (s', evs) → s'.kycs = s.kycs) ∧
    (∀ ctx cb s s' evs, create_vc_callback ctx cb s = Except.ok (s', evs) →
      s'.kycs = s.kycs) := by
  refine ⟨?_, ?_, ?_, ?_, ?_, ?_⟩
  · intro ctx s did info s1 evs h
    rcases upload_ok h with ⟨_, _, hpay⟩
    exact ⟨_, hpay, rfl, rfl⟩
  · intro ctx cb s k s' evs h hcont
    rcases callback_ok h with ⟨_, rfl, _⟩
    have hlt := keys_lt_of_contiguous s.kycs hcont
    have happ := contiguous_insert hcont k
    dsimp only
    rw [happ]
    constructor
    · exact svGet_append_self s.kycs.length k s.kycs
        (fun p hp => Nat.ne_of_lt (hlt p hp))
    · intro j r hr
      exact svGet_append_left j r s.kycs [(s.kycs.length, k)] hr
  · intro ctx s i d s' h
    rcases approve_ok h with ⟨_, hmem, rfl⟩
    constructor
    · rcases svContains_exists_svGet i s.kycs hmem with ⟨r0, hr0⟩
      exact ⟨r0, hr0, svGet_svModify_self i (decideKyc d) r0 s.kycs hr0,
        decideKyc_pending d r0⟩
    · intro j hj
      exact svGet_svModify_ne j i (decideKyc d) hj s.kycs
  · intro ctx s ra sa s' h
    rcases configure_ok h with ⟨_, rfl⟩
    rfl
  · intro ctx s i a b c dsc s' evs h
    rw [create_vc_ok h]
  · intro ctx cb s s' evs h
    rcases cvc_callback_ok h with ⟨rfl, _⟩
    rfl

/-- C9 witness: the concrete staged payload is pending and unapproved, and a
concrete approval rewrites record 0 of `stateOne` to not-pending. -/
theorem claim9_witness :
    (∃ k, stagedPayload [egStage] = some k ∧ k.pending = true ∧
      k.approved = false) ∧
    ((∃ r0, svGet 0 stateOne.kycs = some r0 ∧
        svGet 0 stateApproved.kycs = some (decideKyc true r0) ∧
        (decideKyc true r0).pending = false) ∧
      ∀ j, j ≠ 0 → svGet j stateApproved.kycs = svGet j stateOne.kycs) :=
  ⟨claim9_pending_set_false_exactly_once.1 ctxA stateCfg "did:example:1"
      sampleInfo stateCfg [egStage] rfl,
   claim9_pending_set_false_exactly_once.2.2.1 ctxA stateOne 0 true
      stateApproved rfl⟩

/-- C10: in every reachable state the store's key list is exactly the
contiguous range 0, 1, ..., size-1, so the identifier a successful
verification callback assigns (the current size) is always fresh: each
commit grows the store by one entry and never overwrites a record. -/
theorem claim10_keys_are_contiguous_range
    (s : ContractState) (h : Reachable s) :
    svKeys s.kycs = List.range s.kycs.length :=
  reachable_contiguous h

/-- C10 witness: the freshly initialized state has the contiguous key range. -/
theorem claim10_witness :
    svKeys (initContract ctxA).kycs =
      List.range (initContract ctxA).kycs.length :=
  claim10_keys_are_contiguous_range (initContract ctxA) (Reachable.init ctxA)

end PbcKyc
